import Mathlib

/-!
Verification development for the WUFC Trading Competition core:
a single-symbol limit order book (`limitOrderBook.py`, `limitTreeNodes.py`,
`OrderList.py`, `orderForTree.py`) together with its matching engine
(`MatchEngine.py`) and the participant layer (`Participant.py`,
`ParticipantManager.py`).

The embedding is heap-faithful: Python objects (orders, price-level tree
nodes) are records held in association lists keyed by object ids, so
aliasing between the `_orders` dictionary, the per-level doubly linked
lists and the AVL tree nodes is represented exactly.  Mutating methods
become functions from state to state.  Python floats are modelled as
rationals (`Rat`); Python ints as `Int`.  Loops that are `while` loops in
the source take an explicit fuel argument; exhausting the fuel returns
the state reached so far.
-/

set_option autoImplicit false

namespace WUFC

/-! ### Association-list stores (Python dictionaries and object heaps) -/

def alookup {κ α : Type} [DecidableEq κ] : List (κ × α) → κ → Option α
  | [], _ => none
  | (k, v) :: t, i => if k = i then some v else alookup t i

/-- Insert-or-replace, keeping the position of an existing key. -/
def aset {κ α : Type} [DecidableEq κ] : List (κ × α) → κ → α → List (κ × α)
  | [], i, v => [(i, v)]
  | (k, w) :: t, i, v => if k = i then (i, v) :: t else (k, w) :: aset t i v

/-- Update the value at a key when present; no-op otherwise. -/
def amodify {κ α : Type} [DecidableEq κ] : List (κ × α) → κ → (α → α) → List (κ × α)
  | [], _, _ => []
  | (k, w) :: t, i, f => if k = i then (k, f w) :: t else (k, w) :: amodify t i f

/-- Remove a key (first occurrence) when present. -/
def aerase {κ α : Type} [DecidableEq κ] : List (κ × α) → κ → List (κ × α)
  | [], _ => []
  | (k, w) :: t, i => if k = i then t else (k, w) :: aerase t i

def akeys {κ α : Type} : List (κ × α) → List κ
  | [] => []
  | (k, _) :: t => k :: akeys t

/-! ### Data model: orders (`orderForTree.py`) -/

/-- The `order_type` field of `Order`: the strings `limit`, `market`, `cancel`. -/
inductive OType where
  | limit
  | market
  | cancel
  deriving DecidableEq, Repr

/-- An `Order` object (`orderForTree.py`).  `price` is `none` for market and
cancel orders, mirroring `None`.  The `next_item`, `previous_item` and `root`
attributes set by `__post_init__` and the linked-list code are object ids into
the heaps of the book (`root` points to the `LimitLevel` owning the
`OrderList`; the Python `OrderList` is one-to-one with its `LimitLevel`, so we
key it by the level).  The `timestamp` and `symbol` fields are carried by the
source but never used by the single-symbol matching logic and are omitted. -/
structure Order where
  order_id : Nat
  price : Option Rat
  size : Int
  is_bid : Bool
  order_type : OType
  participant_id : Nat
  next_item : Option Nat := none
  previous_item : Option Nat := none
  root : Option Nat := none
  deriving DecidableEq, Repr

/-- The `parent` attribute of a `LimitLevel`: `None` at creation, a
`LimitLevelTree` (the bid or ask tree object of the book), or another
`LimitLevel` node. -/
inductive Parent where
  | nil
  | tree (isBid : Bool)
  | node (id : Nat)
  deriving DecidableEq, Repr

/-- A `LimitLevel` AVL node (`limitTreeNodes.py`) with its embedded
`OrderList` (`OrderList.py`): `head`, `tail`, `count` are the list fields
(`_lock` is dropped: the per-symbol worker is single-threaded).  `size` is the
cached aggregate size; `height` the cached AVL height.  `side` is a ghost
annotation recording the `is_bid` of the order whose `add` created the
level: no operation ever reads it (the source has no such attribute), it
exists only so that invariants can speak about which side a node belongs
to. -/
structure LimitLevel where
  price : Rat
  size : Int
  parent : Parent := .nil
  left_child : Option Nat := none
  right_child : Option Nat := none
  height : Int := 1
  head : Option Nat := none
  tail : Option Nat := none
  count : Int := 0
  side : Bool := true
  deriving DecidableEq, Repr

/-- The `LimitOrderBook` state (`limitOrderBook.py`).  `nodes` is the heap of
`LimitLevel` objects, `heap` the heap of `Order` objects (the Python object
space, so aliasing between `_orders`, the linked lists and the tree is exact).
`ordersDict` is `_orders` as a map from `order_id` to the object id of the
stored order; `priceLevels` is `_price_levels`, mapping `(price, is_bid)` to
the id of the level node.  `bidsRoot` and `asksRoot` are the `right_child`
slots of the two `LimitLevelTree` objects; `bestBid` and `bestAsk` the cached
best-level pointers.  `nextNode` and `nextObj` supply fresh object ids. -/
structure Book where
  nodes : List (Nat × LimitLevel) := []
  heap : List (Nat × Order) := []
  ordersDict : List (Nat × Nat) := []
  priceLevels : List ((Rat × Bool) × Nat) := []
  bidsRoot : Option Nat := none
  asksRoot : Option Nat := none
  bestBid : Option Nat := none
  bestAsk : Option Nat := none
  nextNode : Nat := 0
  deriving DecidableEq, Repr

namespace Book

def getNode (b : Book) (i : Nat) : Option LimitLevel := alookup b.nodes i

def setNode (b : Book) (i : Nat) (nd : LimitLevel) : Book :=
  { b with nodes := aset b.nodes i nd }

def modNode (b : Book) (i : Nat) (f : LimitLevel → LimitLevel) : Book :=
  { b with nodes := amodify b.nodes i f }

def getOrder (b : Book) (i : Nat) : Option Order := alookup b.heap i

def setOrder (b : Book) (i : Nat) (o : Order) : Book :=
  { b with heap := aset b.heap i o }

def modOrder (b : Book) (i : Nat) (f : Order → Order) : Book :=
  { b with heap := amodify b.heap i f }

/-- Read the root slot (`right_child`) of the bid or ask `LimitLevelTree`. -/
def treeRoot (b : Book) (isBid : Bool) : Option Nat :=
  if isBid then b.bidsRoot else b.asksRoot

def setTreeRoot (b : Book) (isBid : Bool) (v : Option Nat) : Book :=
  if isBid then { b with bidsRoot := v } else { b with asksRoot := v }

/-! ### The per-level FIFO (`OrderList.append`, `Order.pop_from_list`) -/

/-- `OrderList.append` of order object `i` on the list of level `n`
(`OrderList.py` lines 17-35).  Note the source adds `order.size` to the
aggregate only in the non-empty branch; on an empty list the aggregate is
whatever the `LimitLevel` constructor put there. -/
def listAppend (b : Book) (n : Nat) (i : Nat) : Book :=
  let b := b.modOrder i (fun o => { o with root := some n })
  match b.getNode n with
  | none => b
  | some nd =>
    match nd.head with
    | none =>
      b.modNode n (fun m => { m with head := some i, tail := some i, count := m.count + 1 })
    | some _ =>
      match nd.tail with
      | none => b.modNode n (fun m => { m with count := m.count + 1 })
      | some t =>
        let osize := ((b.getOrder i).map Order.size).getD 0
        let b := b.modOrder t (fun o => { o with next_item := some i })
        let b := b.modOrder i (fun o => { o with previous_item := some t })
        b.modNode n (fun m =>
          { m with tail := some i, size := m.size + osize, count := m.count + 1 })

/-- `Order.pop_from_list` (`orderForTree.py` lines 66-87).  The source
handles only the head case (`previous_item is None`) and the tail case
(`next_item is None`); for an item in the middle of the list neither branch
runs, so the neighbours stay linked to the popped item.  The count and the
aggregate size of the level are decremented in every case. -/
def pop_from_list (b : Book) (i : Nat) : Book :=
  match b.getOrder i with
  | none => b
  | some o =>
    match o.root with
    | none => b
    | some n =>
      let b :=
        match o.previous_item with
        | none =>
          let b := b.modNode n (fun m => { m with head := o.next_item })
          match o.next_item with
          | some j => b.modOrder j (fun p => { p with previous_item := none })
          | none => b
        | some pv =>
          match o.next_item with
          | none =>
            let b := b.modNode n (fun m => { m with tail := o.previous_item })
            b.modOrder pv (fun p => { p with next_item := none })
          | some _ => b
      b.modNode n (fun m => { m with count := m.count - 1, size := m.size - o.size })

/-! ### AVL-tree node operations (`limitTreeNodes.py`) -/

/-- Height of an optional child, `0` when absent (used by
`balance_factor` and `_update_height`). -/
def childHeight (b : Book) (c : Option Nat) : Int :=
  match c with
  | none => 0
  | some j => ((b.getNode j).map LimitLevel.height).getD 0

/-- `LimitLevel._update_height`. -/
def update_height (b : Book) (i : Nat) : Book :=
  match b.getNode i with
  | none => b
  | some nd =>
    b.setNode i
      { nd with height := max (childHeight b nd.left_child) (childHeight b nd.right_child) + 1 }

/-- `LimitLevel.balance_factor`. -/
def balance_factor (b : Book) (i : Nat) : Int :=
  match b.getNode i with
  | none => 0
  | some nd => childHeight b nd.right_child - childHeight b nd.left_child

/-- `LimitLevel.is_root`: the parent is one of the two `LimitLevelTree`
objects. -/
def isRootNode (b : Book) (i : Nat) : Bool :=
  match (b.getNode i).map LimitLevel.parent with
  | some (.tree _) => true
  | _ => false

/-- `LimitLevel._replace_node_in_parent`. -/
def replace_node_in_parent (b : Book) (i : Nat) (newv : Option Nat) : Book :=
  match b.getNode i with
  | none => b
  | some nd =>
    match nd.parent with
    | .nil => b
    | .tree isBid =>
      let b := b.setTreeRoot isBid newv
      match newv with
      | some j => b.modNode j (fun m => { m with parent := .tree isBid })
      | none => b
    | .node p =>
      let isLeft := ((b.getNode p).bind LimitLevel.left_child) = some i
      let b :=
        if isLeft then b.modNode p (fun m => { m with left_child := newv })
        else b.modNode p (fun m => { m with right_child := newv })
      let b := update_height b p
      match newv with
      | some j => b.modNode j (fun m => { m with parent := .node p })
      | none => b

/-- `LimitLevel._ll_case`: right rotation around node `i`. -/
def ll_case (b : Book) (i : Nat) : Book :=
  match b.getNode i with
  | none => b
  | some nd =>
    match nd.left_child with
    | none => b
    | some c =>
      let parent := nd.parent
      let b :=
        match parent with
        | .tree isBid => b.setTreeRoot isBid (some c)
        | .node p =>
          if ((b.getNode p).bind LimitLevel.left_child) = some i
          then b.modNode p (fun m => { m with left_child := some c })
          else b.modNode p (fun m => { m with right_child := some c })
        | .nil => b
      let b := b.modNode c (fun m => { m with parent := parent })
      let crc := (b.getNode c).bind LimitLevel.right_child
      let b := b.modNode i (fun m => { m with left_child := crc })
      let b :=
        match crc with
        | some j => b.modNode j (fun m => { m with parent := .node i })
        | none => b
      let b := b.modNode c (fun m => { m with right_child := some i })
      let b := b.modNode i (fun m => { m with parent := .node c })
      let b := update_height b i
      update_height b c

/-- `LimitLevel._rr_case`: left rotation around node `i`. -/
def rr_case (b : Book) (i : Nat) : Book :=
  match b.getNode i with
  | none => b
  | some nd =>
    match nd.right_child with
    | none => b
    | some c =>
      let parent := nd.parent
      let b :=
        match parent with
        | .tree isBid => b.setTreeRoot isBid (some c)
        | .node p =>
          if ((b.getNode p).bind LimitLevel.left_child) = some i
          then b.modNode p (fun m => { m with left_child := some c })
          else b.modNode p (fun m => { m with right_child := some c })
        | .nil => b
      let b := b.modNode c (fun m => { m with parent := parent })
      let clc := (b.getNode c).bind LimitLevel.left_child
      let b := b.modNode i (fun m => { m with right_child := clc })
      let b :=
        match clc with
        | some j => b.modNode j (fun m => { m with parent := .node i })
        | none => b
      let b := b.modNode c (fun m => { m with left_child := some i })
      let b := b.modNode i (fun m => { m with parent := .node c })
      let b := update_height b i
      update_height b c

/-- `LimitLevel._lr_case`: rotate the left child left, then `i` right. -/
def lr_case (b : Book) (i : Nat) : Book :=
  match (b.getNode i).bind LimitLevel.left_child with
  | none => b
  | some c =>
    match (b.getNode c).bind LimitLevel.right_child with
    | none => b
    | some g =>
      let b := b.modNode c (fun m => { m with parent := .node g })
      let b := b.modNode g (fun m => { m with parent := .node i })
      let glc := (b.getNode g).bind LimitLevel.left_child
      let b := b.modNode c (fun m => { m with right_child := glc })
      let b :=
        match glc with
        | some j => b.modNode j (fun m => { m with parent := .node c })
        | none => b
      let b := b.modNode i (fun m => { m with left_child := some g })
      let b := b.modNode g (fun m => { m with left_child := some c })
      ll_case b i

/-- `LimitLevel._rl_case`: rotate the right child right, then `i` left. -/
def rl_case (b : Book) (i : Nat) : Book :=
  match (b.getNode i).bind LimitLevel.right_child with
  | none => b
  | some c =>
    match (b.getNode c).bind LimitLevel.left_child with
    | none => b
    | some g =>
      let b := b.modNode c (fun m => { m with parent := .node g })
      let b := b.modNode g (fun m => { m with parent := .node i })
      let grc := (b.getNode g).bind LimitLevel.right_child
      let b := b.modNode c (fun m => { m with left_child := grc })
      let b :=
        match grc with
        | some j => b.modNode j (fun m => { m with parent := .node c })
        | none => b
      let b := b.modNode i (fun m => { m with right_child := some g })
      let b := b.modNode g (fun m => { m with right_child := some c })
      rr_case b i

/-- `LimitLevel.balance`, recursing up the tree; the fuel bounds the length
of the parent chain.  The source returns before rotating when the node is
the side-tree root, and only recurses into a parent that is a `LimitLevel`
and is itself not the root. -/
def balance (b : Book) (fuel : Nat) (i : Nat) : Book :=
  match fuel with
  | 0 => b
  | fuel + 1 =>
    let b := update_height b i
    if isRootNode b i then b
    else
      let b :=
        if balance_factor b i > 1 then
          match (b.getNode i).bind LimitLevel.right_child with
          | some r => if balance_factor b r < 0 then rl_case b i else rr_case b i
          | none => b
        else if balance_factor b i < -1 then
          match (b.getNode i).bind LimitLevel.left_child with
          | some l => if balance_factor b l < 0 then ll_case b i else lr_case b i
          | none => b
        else b
      let b := update_height b i
      match (b.getNode i).map LimitLevel.parent with
      | some (.node p) => if isRootNode b p then b else balance b fuel p
      | _ => b

/-- `LimitLevel.balance_grandpa`: balance the grandparent when it is a
`LimitLevel` node. -/
def balance_grandpa (b : Book) (fuel : Nat) (i : Nat) : Book :=
  match (b.getNode i).map LimitLevel.parent with
  | some (.node p) =>
    match (b.getNode p).map LimitLevel.parent with
    | some (.node g) => balance b fuel g
    | _ => b
  | _ => b

/-- `LimitLevel.min`: walk left children. -/
def nodeMin (b : Book) (fuel : Nat) (i : Nat) : Nat :=
  match fuel with
  | 0 => i
  | fuel + 1 =>
    match (b.getNode i).bind LimitLevel.left_child with
    | some l => nodeMin b fuel l
    | none => i

/-- `LimitLevel.remove` (`limitTreeNodes.py` lines 97-113).  With two
children the source copies the successor price and size onto this node —
but not its order list — and then removes the successor node. -/
def removeNode (b : Book) (fuel : Nat) (i : Nat) : Book :=
  match fuel with
  | 0 => b
  | fuel + 1 =>
    match b.getNode i with
    | none => b
    | some nd =>
      match nd.left_child, nd.right_child with
      | some _, some r =>
        let s := nodeMin b (b.nextNode + 1) r
        let b :=
          match b.getNode s with
          | some snd => b.modNode i (fun m => { m with price := snd.price, size := snd.size })
          | none => b
        let b := removeNode b fuel s
        balance_grandpa b (b.nextNode + 1) i
      | some l, none => replace_node_in_parent b i (some l)
      | none, some r => replace_node_in_parent b i (some r)
      | none, none => replace_node_in_parent b i none

/-- `LimitLevelTree.insert`: walk from the root to an empty slot; a
duplicate price raises `ValueError`, reported here as a `false` flag. -/
def insertWalk (b : Book) (fuel : Nat) (price : Rat) (newId : Nat) (cur : Nat) :
    Book × Bool :=
  match fuel with
  | 0 => (b, true)
  | fuel + 1 =>
    match b.getNode cur with
    | none => (b, true)
    | some cnd =>
      if price > cnd.price then
        match cnd.right_child with
        | none =>
          let b := b.modNode cur (fun m => { m with right_child := some newId })
          let b := b.modNode newId (fun m => { m with parent := .node cur })
          (balance_grandpa b (b.nextNode + 1) newId, true)
        | some r => insertWalk b fuel price newId r
      else if price < cnd.price then
        match cnd.left_child with
        | none =>
          let b := b.modNode cur (fun m => { m with left_child := some newId })
          let b := b.modNode newId (fun m => { m with parent := .node cur })
          (balance_grandpa b (b.nextNode + 1) newId, true)
        | some l => insertWalk b fuel price newId l
      else (b, false)

def treeInsert (b : Book) (isBid : Bool) (newId : Nat) : Book × Bool :=
  match treeRoot b isBid with
  | none =>
    let b := setTreeRoot b isBid (some newId)
    (b.modNode newId (fun m => { m with parent := .tree isBid }), true)
  | some root =>
    let price := ((b.getNode newId).map LimitLevel.price).getD 0
    insertWalk b (b.nextNode + 1) price newId root

/-- Walk to the rightmost node (for `_update_best_bid`). -/
def walkRight (b : Book) (fuel : Nat) (i : Nat) : Nat :=
  match fuel with
  | 0 => i
  | fuel + 1 =>
    match (b.getNode i).bind LimitLevel.right_child with
    | some r => walkRight b fuel r
    | none => i

/-- Walk to the leftmost node (for `_update_best_ask`). -/
def walkLeft (b : Book) (fuel : Nat) (i : Nat) : Nat :=
  match fuel with
  | 0 => i
  | fuel + 1 =>
    match (b.getNode i).bind LimitLevel.left_child with
    | some l => walkLeft b fuel l
    | none => i

/-- `LimitOrderBook._update_best_bid`. -/
def update_best_bid (b : Book) : Book :=
  match b.bidsRoot with
  | none => { b with bestBid := none }
  | some r => { b with bestBid := some (walkRight b (b.nextNode + 1) r) }

/-- `LimitOrderBook._update_best_ask`. -/
def update_best_ask (b : Book) : Book :=
  match b.asksRoot with
  | none => { b with bestAsk := none }
  | some r => { b with bestAsk := some (walkLeft b (b.nextNode + 1) r) }

/-! ### The limit order book proper (`limitOrderBook.py`) -/

/-- `LimitOrderBook.top_level`: the head order of the best level of one
side, as an object id. -/
def top_level (b : Book) (askForBid : Bool) : Option Nat :=
  if askForBid then
    match b.bestBid with
    | none => none
    | some n => (b.getNode n).bind LimitLevel.head
  else
    match b.bestAsk with
    | none => none
    | some n => (b.getNode n).bind LimitLevel.head

/-- `LimitOrderBook.get_best_price`. -/
def get_best_price (b : Book) (askForBid : Bool) : Option Rat :=
  if askForBid then
    match b.bestBid with
    | none => none
    | some n => (b.getNode n).map LimitLevel.price
  else
    match b.bestAsk with
    | none => none
    | some n => (b.getNode n).map LimitLevel.price

/-- `LimitOrderBook.remove` (lines 73-108).  Looks the id up in `_orders`
(returning `False` — `some false` — when absent), pops the stored object
from its list, and drops the level when its count reached zero, re-deriving
the best pointer when the popped level was the cached best.  The successful
path falls off the end of the Python function and returns `None`, modelled
as `none`. -/
def remove (b : Book) (oid : Nat) : Book × Option Bool :=
  match alookup b.ordersDict oid with
  | none => (b, some false)
  | some popped =>
    let b := { b with ordersDict := aerase b.ordersDict oid }
    match b.getOrder popped with
    | none => (b, none)
    | some po =>
      let b := pop_from_list b popped
      let key : Rat × Bool := (po.price.getD 0, po.is_bid)
      match alookup b.priceLevels key with
      | none => (b, none)
      | some lvl =>
        let cnt := ((b.getNode lvl).map LimitLevel.count).getD 0
        if cnt = 0 then
          let b := { b with priceLevels := aerase b.priceLevels key }
          let b := removeNode b (b.nextNode + 1) lvl
          let b :=
            if po.is_bid then
              if b.bestBid = some lvl then update_best_bid b else b
            else
              if b.bestAsk = some lvl then update_best_ask b else b
          (b, none)
        else (b, none)

/-- `LimitOrderBook.add` (lines 110-151).  A new `(price, is_bid)` level
allocates a `LimitLevel` (whose constructor appends the order), registers
the order and the level, inserts the level into the side tree and possibly
updates the cached best pointer; an existing level just registers and
appends.  A `ValueError` from the tree insert (duplicate price) lands in
the except-branch, which registers the order again and appends it to the
level that is by then in the dictionary. -/
def add (b : Book) (i : Nat) : Book :=
  match b.getOrder i with
  | none => b
  | some o =>
    let key : Rat × Bool := (o.price.getD 0, o.is_bid)
    match alookup b.priceLevels key with
    | some lvl =>
      let b := { b with ordersDict := aset b.ordersDict o.order_id i }
      listAppend b lvl i
    | none =>
      let n := b.nextNode
      let nd : LimitLevel := { price := o.price.getD 0, size := o.size, side := o.is_bid }
      let b := { b with nodes := aset b.nodes n nd, nextNode := b.nextNode + 1 }
      let b := listAppend b n i
      let b := { b with ordersDict := aset b.ordersDict o.order_id i }
      let b := { b with priceLevels := aset b.priceLevels key n }
      let bi := treeInsert b o.is_bid n
      let b := bi.1
      if bi.2 then
        if o.is_bid then
          match b.bestBid with
          | none => { b with bestBid := some n }
          | some bb =>
            if key.1 > (((b.getNode bb).map LimitLevel.price).getD 0)
            then { b with bestBid := some n } else b
        else
          match b.bestAsk with
          | none => { b with bestAsk := some n }
          | some ba =>
            if key.1 < (((b.getNode ba).map LimitLevel.price).getD 0)
            then { b with bestAsk := some n } else b
      else
        let b := { b with ordersDict := aset b.ordersDict o.order_id i }
        listAppend b n i

/-- `LimitOrderBook.update`: copies the size of the passed order object onto
the registered object with the same `order_id` and lowers the aggregate of
the parent level by `size_diff`. -/
def update (b : Book) (i : Nat) (size_diff : Int) : Book :=
  match b.getOrder i with
  | none => b
  | some o =>
    match alookup b.ordersDict o.order_id with
    | none => b
    | some tgt =>
      let b := b.modOrder tgt (fun t => { t with size := o.size })
      match (b.getOrder tgt).bind Order.root with
      | none => b
      | some n => b.modNode n (fun m => { m with size := m.size - size_diff })

/-- `LimitOrderBook.process`: remove at size zero, update when registered,
add otherwise. -/
def process (b : Book) (i : Nat) (quantity : Int) : Book :=
  match b.getOrder i with
  | none => b
  | some o =>
    if o.size = 0 then (remove b o.order_id).1
    else if (alookup b.ordersDict o.order_id).isSome then update b i quantity
    else add b i

/-! ### Snapshots (`LimitOrderBook.get_order_book`) -/

def insertAsc (x : Rat) : List Rat → List Rat
  | [] => [x]
  | y :: t => if x ≤ y then x :: y :: t else y :: insertAsc x t

def sortAsc : List Rat → List Rat
  | [] => []
  | x :: t => insertAsc x (sortAsc t)

def sortDesc (l : List Rat) : List Rat := (sortAsc l).reverse

/-- `LimitOrderBook.get_order_book` without a depth bound: the bid side
descending and the ask side ascending, each entry `(price, aggregate)`,
with bids at or above the cached best-ask price and asks at or below the
cached best-bid price filtered out (absent best prices act as infinities). -/
def get_order_book (b : Book) : List (Rat × Int) × List (Rat × Int) :=
  let bidKeys := sortDesc ((akeys b.priceLevels).filterMap
    (fun k => if k.2 then some k.1 else none))
  let askKeys := sortAsc ((akeys b.priceLevels).filterMap
    (fun k => if k.2 then none else some k.1))
  let bestBidP := get_best_price b true
  let bestAskP := get_best_price b false
  let bids := bidKeys.filterMap (fun p =>
    if (match bestAskP with | none => true | some q => p < q) then
      (alookup b.priceLevels (p, true)).bind
        (fun lvl => (b.getNode lvl).map (fun nd => (p, nd.size)))
    else none)
  let asks := askKeys.filterMap (fun p =>
    if (match bestBidP with | none => true | some q => p > q) then
      (alookup b.priceLevels (p, false)).bind
        (fun lvl => (b.getNode lvl).map (fun nd => (p, nd.size)))
    else none)
  (bids, asks)

end Book

/-! ### Participants (`Participant.py`, `ParticipantManager.py`) -/

/-- Participant state: cash balance and (single-symbol) portfolio position.
The starting balance in the source defaults to `100000.0`. -/
structure Participant where
  balance : Rat
  portfolio : Int := 0
  deriving DecidableEq, Repr

/-- The `trade_details` dictionary passed to
`ParticipantManager.send_execution_report`, together with the two
participant ids it is addressed to. -/
structure Report where
  buyer_participant_id : Nat
  seller_participant_id : Nat
  buyer_order_id : Nat
  seller_order_id : Nat
  buy_price : Rat
  sell_price : Rat
  quantity : Int
  deriving DecidableEq, Repr

/-- The `ParticipantManager.participants` registry. -/
abbrev PM := List (Nat × Participant)

/-- The `side == 'buy'` branch of `Participant.receive_execution_report`. -/
def receiveBuy (p : Participant) (price : Rat) (qty : Int) : Participant :=
  { p with balance := p.balance - price * (qty : Rat), portfolio := p.portfolio + qty }

/-- The `side == 'sell'` branch of `Participant.receive_execution_report`. -/
def receiveSell (p : Participant) (price : Rat) (qty : Int) : Participant :=
  { p with balance := p.balance + price * (qty : Rat), portfolio := p.portfolio - qty }

/-- `ParticipantManager.send_execution_report`: the buyer report (side
`buy`, price `buy_price`) is applied first, then the seller report (side
`sell`, price `sell_price`); a missing participant is skipped. -/
def send_execution_report (pm : PM) (r : Report) : PM :=
  let pm := amodify pm r.buyer_participant_id (fun p => receiveBuy p r.buy_price r.quantity)
  amodify pm r.seller_participant_id (fun p => receiveSell p r.sell_price r.quantity)

/-! ### The match engine (`MatchEngine.py`) -/

/-- Full engine state for one symbol: the book, the participant registry,
the log of trade reports emitted so far (each entry is one
`send_execution_report` call), and a counter supplying fresh ids for
created orders (standing in for `uuid4`). -/
structure EState where
  book : Book := {}
  pm : PM := []
  reports : List Report := []
  nextOid : Nat := 0
  deriving DecidableEq, Repr

def sendReport (s : EState) (r : Report) : EState :=
  { s with pm := send_execution_report s.pm r, reports := s.reports ++ [r] }

/-- The body of `MatchEngine.acceptLimitOrder` (lines 15-69), with the
`while` loop as fuel recursion.  `ag` is the object id of the aggressive
order.  Points worth noting, all faithful to the source:
 the self-trade comparison on lines 25-26 has a `pass` body and so has no
 effect; `total_cost` and the execution-report prices use the buy and sell
 orders own limit prices, whichever side was resting; an unknown buyer in
 `get_participant_balance` raises, aborting the command with the state
 reached so far. -/
def limitLoop (fuel : Nat) (s : EState) (ag : Nat) : EState :=
  match fuel with
  | 0 => s
  | fuel + 1 =>
    match s.book.getOrder ag with
    | none => s
    | some aggr =>
      if aggr.size > 0 then
        match Book.top_level s.book (!aggr.is_bid) with
        | none => { s with book := Book.process s.book ag 0 }
        | some opId =>
          match s.book.getOrder opId with
          | none => s
          | some opp =>
            let pa := aggr.price.getD 0
            let po := opp.price.getD 0
            if (if aggr.is_bid then pa < po else pa > po) then
              { s with book := Book.process s.book ag 0 }
            else
              let tq := min aggr.size opp.size
              let buyPid := if aggr.is_bid then aggr.participant_id else opp.participant_id
              match alookup s.pm buyPid with
              | none => s
              | some buyer =>
                let buyOrder := if aggr.is_bid then aggr else opp
                let sellOrder := if aggr.is_bid then opp else aggr
                let sellOid := if aggr.is_bid then opId else ag
                let bp := buyOrder.price.getD 0
                let total_cost := bp * (tq : Rat)
                let tq2 := if buyer.balance < total_cost
                           then Int.floor (buyer.balance / bp) else tq
                if buyer.balance < total_cost ∧ tq2 ≤ 0 then
                  let b := (Book.remove s.book buyOrder.order_id).1
                  let b := Book.process b sellOid 0
                  let s := { s with book := b }
                  if !aggr.is_bid then limitLoop fuel s ag else s
                else
                  let b := Book.modOrder s.book ag (fun o2 => { o2 with size := o2.size - tq2 })
                  let b := Book.modOrder b opId (fun o2 => { o2 with size := o2.size - tq2 })
                  let r : Report :=
                    { buyer_participant_id := buyOrder.participant_id
                      seller_participant_id := sellOrder.participant_id
                      buyer_order_id := buyOrder.order_id
                      seller_order_id := sellOrder.order_id
                      buy_price := buyOrder.price.getD 0
                      sell_price := sellOrder.price.getD 0
                      quantity := tq2 }
                  let s := sendReport { s with book := b } r
                  let s := { s with book := Book.process s.book ag tq2 }
                  let s := { s with book := Book.process s.book opId tq2 }
                  limitLoop fuel s ag
      else s

/-- The body of `MatchEngine.acceptMarketOrder` (lines 71-122).  The
`while` guard asks `top_level` for the **same** side as the aggressor
(`askForBid=aggressiveOrder.is_bid`); the opposite side is only fetched
inside the loop.  Market trades price both report sides at the resting
(`opposing`) price.  The aggressor is never handed to `book.process`, so
residual market size is discarded. -/
def marketLoop (fuel : Nat) (s : EState) (ag : Nat) : EState :=
  match fuel with
  | 0 => s
  | fuel + 1 =>
    match s.book.getOrder ag with
    | none => s
    | some aggr =>
      if aggr.size > 0 ∧ (Book.top_level s.book aggr.is_bid).isSome then
        match Book.top_level s.book (!aggr.is_bid) with
        | none => s
        | some opId =>
          match s.book.getOrder opId with
          | none => s
          | some opp =>
            if aggr.participant_id = opp.participant_id then s
            else
              let tp := opp.price.getD 0
              let tq := min aggr.size opp.size
              let total := tp * (tq : Rat)
              let buyPid := if aggr.is_bid then aggr.participant_id else opp.participant_id
              match alookup s.pm buyPid with
              | none => s
              | some buyer =>
                let doTrade : EState → Int → EState := fun s tqf =>
                  let b := Book.modOrder s.book opId
                    (fun o2 => { o2 with size := o2.size - tqf })
                  let b := Book.modOrder b ag (fun o2 => { o2 with size := o2.size - tqf })
                  let r : Report :=
                    { buyer_participant_id := buyPid
                      seller_participant_id := if aggr.is_bid then opp.participant_id
                                               else aggr.participant_id
                      buyer_order_id := if aggr.is_bid then aggr.order_id else opp.order_id
                      seller_order_id := if aggr.is_bid then opp.order_id else aggr.order_id
                      buy_price := tp
                      sell_price := tp
                      quantity := tqf }
                  let s := sendReport { s with book := b } r
                  { s with book := Book.process s.book opId tqf }
                if aggr.is_bid then
                  if buyer.balance < total then
                    let pq := Int.floor (buyer.balance / tp)
                    if pq ≤ 0 then s
                    else marketLoop fuel (doTrade s pq) ag
                  else marketLoop fuel (doTrade s tq) ag
                else
                  if buyer.balance < total then
                    let pq := Int.floor (buyer.balance / tp)
                    if pq ≤ 0 then
                      let s := { s with book := (Book.remove s.book opp.order_id).1 }
                      marketLoop fuel s ag
                    else marketLoop fuel (doTrade s pq) ag
                  else marketLoop fuel (doTrade s tq) ag
      else s

/-- `MatchEngine.acceptCancelOrder` is `process(order, 0)`; a cancel order
always has `size = 0` (`create_cancel_order`), so `process` takes its
remove branch, which uses only the `order_id` of the passed object. -/
def acceptCancelOrder (b : Book) (target : Nat) : Book :=
  (Book.remove b target).1

/-! ### Order creation and submission (`orderForTree.py`, `Participant.py`,
`OrderQueue.py`) -/

/-- Python `round(x, 2)`: round half to even at two decimal places.  (The
source applies it to binary floats; prices in this development are exact
rationals.) -/
def round2 (q : Rat) : Rat :=
  let y := q * 100
  let n := Int.floor y
  let r := y - (n : Rat)
  let m : Int :=
    if r < 1 / 2 then n
    else if r > 1 / 2 then n + 1
    else if n % 2 = 0 then n else n + 1
  (m : Rat) / 100

/-- `Order.create_limit_order`: `ValueError` (here `none`) for
non-positive price, non-positive size, or a side other than `buy` and
`sell`. -/
def create_limit_order (price : Rat) (size : Int) (side : String) (pid oid : Nat) :
    Option Order :=
  if price ≤ 0 then none
  else if size ≤ 0 then none
  else if side = "buy" then
    some { order_id := oid, price := some price, size := size, is_bid := true,
           order_type := .limit, participant_id := pid }
  else if side = "sell" then
    some { order_id := oid, price := some price, size := size, is_bid := false,
           order_type := .limit, participant_id := pid }
  else none

/-- `Order.create_market_order`: only the side is validated; the size is
not checked. -/
def create_market_order (size : Int) (side : String) (pid oid : Nat) : Option Order :=
  if side = "buy" then
    some { order_id := oid, price := none, size := size, is_bid := true,
           order_type := .market, participant_id := pid }
  else if side = "sell" then
    some { order_id := oid, price := none, size := size, is_bid := false,
           order_type := .market, participant_id := pid }
  else none

/-- `Order.create_cancel_order`: carries the target `order_id`, `size = 0`,
no price. -/
def create_cancel_order (target pid : Nat) : Order :=
  { order_id := target, price := none, size := 0, is_bid := true,
    order_type := .cancel, participant_id := pid }

/-- `PerTickerOrderQueue.put_order`: orders without a price (market,
cancel) are prepended; priced orders are rounded to two decimals and
appended. -/
def put_order (q : List Order) (o : Order) : List Order :=
  match o.price with
  | none => o :: q
  | some p => q ++ [{ o with price := some (round2 p) }]

/-- `Participant._place_order_in_queue`: a limit buy is rejected when the
balance is below `price * size`; everything else is enqueued. -/
def place_order_in_queue (balance : Rat) (q : List Order) (o : Order) :
    Bool × List Order :=
  if o.is_bid ∧ o.order_type = .limit ∧ o.price.isSome then
    if balance < o.price.getD 0 * (o.size : Rat) then (false, q)
    else (true, put_order q o)
  else (true, put_order q o)

/-- `Participant.create_limit_order`: factory plus queue placement,
returning the order id on success and `none` on failure. -/
def participant_create_limit_order (balance : Rat) (q : List Order) (price : Rat)
    (size : Int) (side : String) (pid oid : Nat) : Option Nat × List Order :=
  match create_limit_order price size side pid oid with
  | none => (none, q)
  | some o =>
    let pr := place_order_in_queue balance q o
    (if pr.1 then some o.order_id else none, pr.2)

/-- `Participant.create_market_order`: factory plus queue placement. -/
def participant_create_market_order (balance : Rat) (q : List Order) (size : Int)
    (side : String) (pid oid : Nat) : Option Nat × List Order :=
  match create_market_order size side pid oid with
  | none => (none, q)
  | some o =>
    let pr := place_order_in_queue balance q o
    (if pr.1 then some o.order_id else none, pr.2)

/-! ### One command end to end -/

/-- A submission command, as issued by a participant strategy. -/
inductive Cmd where
  | limit (pid : Nat) (price : Rat) (size : Int) (side : String)
  | market (pid : Nat) (size : Int) (side : String)
  | cancel (pid : Nat) (target : Nat)
  deriving DecidableEq, Repr

/-- Process one submitted command to completion: validate and enqueue it as
the participant layer does, then let the (per-symbol, single-threaded)
worker dequeue it and run the matching engine.  A rejected submission
leaves the state unchanged.  `fuel` bounds the matching loops. -/
def processCommand (fuel : Nat) (s : EState) (c : Cmd) : EState :=
  match c with
  | .limit pid price size side =>
    match alookup s.pm pid with
    | none => s
    | some pt =>
      let oid := s.nextOid
      let sub := participant_create_limit_order pt.balance [] price size side pid oid
      match sub.1, sub.2.head? with
      | some _, some o =>
        let s := { s with book := Book.setOrder s.book oid o, nextOid := oid + 1 }
        limitLoop fuel s oid
      | _, _ => s
  | .market pid size side =>
    match alookup s.pm pid with
    | none => s
    | some pt =>
      let oid := s.nextOid
      let sub := participant_create_market_order pt.balance [] size side pid oid
      match sub.1, sub.2.head? with
      | some _, some o =>
        let s := { s with book := Book.setOrder s.book oid o, nextOid := oid + 1 }
        marketLoop fuel s oid
      | _, _ => s
  | .cancel pid target =>
    { s with book := acceptCancelOrder s.book (create_cancel_order target pid).order_id }

/-- Initial state: a registry of participants with starting balances, an
empty book. -/
def initState (ps : List (Nat × Rat)) : EState :=
  { pm := ps.map (fun pr => (pr.1, { balance := pr.2 })) }

def run (fuel : Nat) (ps : List (Nat × Rat)) (cs : List Cmd) : EState :=
  cs.foldl (processCommand fuel) (initState ps)

/-! ### Observables used by the claims -/

/-- The ids on the FIFO of a level, following `head` and then `next_item`
pointers (what matching traverses). -/
def fifoFrom (b : Book) (fuel : Nat) (cur : Option Nat) : List Nat :=
  match fuel, cur with
  | 0, _ => []
  | _, none => []
  | fuel + 1, some i =>
    i :: fifoFrom b fuel ((b.getOrder i).bind Order.next_item)

/-- The FIFO of the level at `(price, isBid)`. -/
def levelFifo (b : Book) (price : Rat) (isBid : Bool) : List Nat :=
  match alookup b.priceLevels (price, isBid) with
  | none => []
  | some lvl => fifoFrom b (b.heap.length + 1) ((b.getNode lvl).bind LimitLevel.head)

/-- Sum of the live sizes of the orders on a FIFO. -/
def fifoSizeSum (b : Book) (ids : List Nat) : Int :=
  (ids.map (fun i => ((b.getOrder i).map Order.size).getD 0)).sum

/-- The cached aggregate of the level at `(price, isBid)`. -/
def levelAggregate (b : Book) (price : Rat) (isBid : Bool) : Option Int :=
  (alookup b.priceLevels (price, isBid)).bind (fun lvl => (b.getNode lvl).map LimitLevel.size)

def balanceOf (s : EState) (pid : Nat) : Option Rat :=
  (alookup s.pm pid).map Participant.balance

def portfolioOf (s : EState) (pid : Nat) : Option Int :=
  (alookup s.pm pid).map Participant.portfolio

/-! ## Support lemmas on association lists -/

theorem alookup_eq_none_of_not_mem {α : Type} (l : List (Nat × α)) (k : Nat)
    (h : k ∉ l.map Prod.fst) : alookup l k = none := by
  induction l with
  | nil => rfl
  | cons hd tl ih =>
    simp only [List.map_cons, List.mem_cons] at h
    push_neg at h
    simpa [alookup, Ne.symm h.1] using ih h.2

theorem alookup_aerase_self {α : Type} (l : List (Nat × α)) (k : Nat)
    (h : (l.map Prod.fst).Nodup) : alookup (aerase l k) k = none := by
  induction l with
  | nil => rfl
  | cons hd tl ih =>
    simp only [List.map_cons, List.nodup_cons] at h
    by_cases hk : hd.1 = k
    · simpa [aerase, hk] using alookup_eq_none_of_not_mem tl k (hk ▸ h.1)
    · simpa [aerase, hk, alookup, Ne.symm hk] using ih h.2

theorem alookup_amodify_self {α : Type} (l : List (Nat × α)) (k : Nat) (f : α → α) :
    alookup (amodify l k f) k = (alookup l k).map f := by
  induction l with
  | nil => rfl
  | cons hd tl ih =>
    by_cases hk : hd.1 = k
    · simp [amodify, alookup, hk]
    · simp only [amodify, hk, if_false, alookup, ih]

theorem alookup_amodify_ne {α : Type} (l : List (Nat × α)) (k j : Nat) (f : α → α)
    (h : j ≠ k) : alookup (amodify l k f) j = alookup l j := by
  induction l with
  | nil => rfl
  | cons hd tl ih =>
    by_cases hk : hd.1 = k
    · simp [amodify, alookup, hk, Ne.symm h]
    · simp only [amodify, hk, if_false, alookup, ih]

/-! ## Claim C1: execution prices on the limit path

Trace: participant 0 (balance 1000000) rests a limit buy 100 at 10.00;
participant 1 (balance 0) submits a limit sell 60 at 9.50, which crosses it.
The single trade is reported with `buy_price = 10` (the resting bid price)
but `sell_price = 9.5` (the aggressive ask price): the buyer is debited
600 while the seller is credited 570. -/
def C1run : EState :=
  run 30 [(0, 1000000), (1, 0)] [.limit 0 10 100 "buy", .limit 1 (19 / 2) 60 "sell"]

/-- Claim C1, counterexample: in the C1 trace the execution report does not
price both sides at the resting price (10): the sell side is priced at the
aggressor limit 9.5, so the buyer debit (600) differs from the seller
credit (570). -/
theorem C1_counterexample :
    C1run.reports =
      [{ buyer_participant_id := 0, seller_participant_id := 1,
         buyer_order_id := 0, seller_order_id := 1,
         buy_price := 10, sell_price := 19 / 2, quantity := 60 }] ∧
    (19 : Rat) / 2 ≠ 10 ∧
    balanceOf C1run 0 = some 999400 ∧
    balanceOf C1run 1 = some 570 ∧
    (1000000 : Rat) - 999400 ≠ 570 - 0 := by
  refine ⟨by with_unfolding_all rfl, by norm_num, by with_unfolding_all rfl,
    by with_unfolding_all rfl, by norm_num⟩

/-- Claim C1, amended: settlement of an execution report.  For every trade
report the engine emits (the limit path fills `buy_price` and `sell_price`
with the buy and the sell order literal limit prices, equal only when those
prices coincide), `send_execution_report` debits the buyer by exactly
`buy_price * quantity` and credits the seller by exactly
`sell_price * quantity`, moving `quantity` of stock from seller to buyer. -/
theorem C1_settlement (pm : PM) (r : Report) (pb ps : Participant)
    (hner : r.buyer_participant_id ≠ r.seller_participant_id)
    (hb : alookup pm r.buyer_participant_id = some pb)
    (hs : alookup pm r.seller_participant_id = some ps) :
    alookup (send_execution_report pm r) r.buyer_participant_id =
      some { balance := pb.balance - r.buy_price * (r.quantity : Rat),
             portfolio := pb.portfolio + r.quantity } ∧
    alookup (send_execution_report pm r) r.seller_participant_id =
      some { balance := ps.balance + r.sell_price * (r.quantity : Rat),
             portfolio := ps.portfolio - r.quantity } := by
  unfold send_execution_report
  constructor
  · rw [alookup_amodify_ne _ _ _ _ hner, alookup_amodify_self, hb]
    rfl
  · rw [alookup_amodify_self, alookup_amodify_ne _ _ _ _ (Ne.symm hner), hs]
    rfl

/-- Witness for the C1 settlement theorem at a concrete registry and
report. -/
theorem C1_settlement_witness :
    alookup (send_execution_report [(0, { balance := 1000 }), (1, { balance := 50 })]
      { buyer_participant_id := 0, seller_participant_id := 1,
        buyer_order_id := 4, seller_order_id := 5,
        buy_price := 10, sell_price := 19 / 2, quantity := 3 }) 0 =
      some { balance := 1000 - 10 * ((3 : Int) : Rat), portfolio := 0 + 3 } ∧
    alookup (send_execution_report [(0, { balance := 1000 }), (1, { balance := 50 })]
      { buyer_participant_id := 0, seller_participant_id := 1,
        buyer_order_id := 4, seller_order_id := 5,
        buy_price := 10, sell_price := 19 / 2, quantity := 3 }) 1 =
      some { balance := 50 + 19 / 2 * ((3 : Int) : Rat), portfolio := 0 - 3 } :=
  C1_settlement [(0, { balance := 1000 }), (1, { balance := 50 })]
    { buyer_participant_id := 0, seller_participant_id := 1,
      buyer_order_id := 4, seller_order_id := 5,
      buy_price := 10, sell_price := 19 / 2, quantity := 3 }
    { balance := 1000 } { balance := 50 } (by decide) rfl rfl

/-! ## Claim C2: the market-order loop guard

Trace: participant 0 (balance 1000) rests a limit sell 100 at 10.00;
participant 1 (balance 50) submits a market buy of 100 while the bid side
is empty.  The `while` guard of `acceptMarketOrder` consults `top_level`
for the aggressor own side (`askForBid=aggressiveOrder.is_bid`), which is
empty, so the loop body never runs: no trade, no balance change, the ask
remains 100. -/
def C2run : EState :=
  run 30 [(0, 1000), (1, 50)] [.limit 0 10 100 "sell", .market 1 100 "buy"]

/-- Claim C2: evaluating the code at the claimed scenario.  The spec
expects a partial fill of 5 at 10.00 (balance 0, portfolio +5, ask 95);
the code executes no trade at all because its loop guard checks the
aggressor own (empty) side of the book. -/
theorem C2_market_guard_no_trade :
    C2run.reports = [] ∧
    balanceOf C2run 1 = some 50 ∧
    portfolioOf C2run 1 = some 0 ∧
    levelAggregate C2run.book 10 false = some 100 := by
  refine ⟨by with_unfolding_all rfl, by with_unfolding_all rfl,
    by with_unfolding_all rfl, by with_unfolding_all rfl⟩

/-! ## Claim C3: the self-trade check on the limit path

Trace: participant 0 (balance 1000) rests a limit sell 10 at 9.00 and then
submits a limit buy 5 at 9.00.  The self-trade comparison in
`acceptLimitOrder` has a `pass` body, so the match proceeds: a 5-lot trade
executes with participant 0 on both sides, the resting ask drops to 5, and
no bid rests. -/
def C3run : EState :=
  run 30 [(0, 1000)] [.limit 0 9 10 "sell", .limit 0 9 5 "buy"]

/-- Claim C3: evaluating the code at the claimed scenario.  The spec says
no trade occurs and the bid of 5 rests at 9.00; the code instead executes
the self-trade (one report, quantity 5, participant 0 as both buyer and
seller), leaves 5 resting on the ask and rests no bid. -/
theorem C3_self_trade_executes :
    C3run.reports.map Report.quantity = [5] ∧
    C3run.reports.map Report.buyer_participant_id = [0] ∧
    C3run.reports.map Report.seller_participant_id = [0] ∧
    levelAggregate C3run.book 9 false = some 5 ∧
    levelAggregate C3run.book 9 true = none ∧
    balanceOf C3run 0 = some 1000 := by
  refine ⟨by with_unfolding_all rfl, by with_unfolding_all rfl,
    by with_unfolding_all rfl, by with_unfolding_all rfl,
    by with_unfolding_all rfl, by with_unfolding_all rfl⟩

/-! ## Claim C4: level aggregate versus FIFO contents

Trace: participant 0 rests three bids at 5.00 with sizes 5, 10 and 15
(order ids 0, 1, 2 in FIFO order), then cancels the middle one (id 1).
`Order.pop_from_list` handles only the head and tail cases, so the middle
order stays linked: the traversal from `head` still yields all three
orders (sum of sizes 30) while the cached aggregate has dropped to 20. -/
def C4run : EState :=
  run 30 [(0, 10000)]
    [.limit 0 5 5 "buy", .limit 0 5 10 "buy", .limit 0 5 15 "buy", .cancel 0 1]

/-- Claim C4: evaluating the code at the failing input.  After cancelling
the middle order of a three-order level, the cancelled order is no longer
registered in `_orders`, yet it is still reachable from the FIFO head, so
the aggregate (20) no longer equals the sum of the sizes on the FIFO
(30). -/
theorem C4_middle_cancel_desync :
    levelAggregate C4run.book 5 true = some 20 ∧
    levelFifo C4run.book 5 true = [0, 1, 2] ∧
    fifoSizeSum C4run.book (levelFifo C4run.book 5 true) = 30 ∧
    alookup C4run.book.ordersDict 1 = none ∧
    (20 : Int) ≠ 30 := by
  refine ⟨by with_unfolding_all rfl, by with_unfolding_all rfl,
    by with_unfolding_all rfl, by with_unfolding_all rfl, by norm_num⟩

/-! ## Claim C7: the book can end up crossed

Trace: participant 0 rests asks at 10, 5 and 15 (one lot each; the ask
tree has 10 at the root with children 5 and 15).  Cancelling the order at
10 hits the two-children case of `LimitLevel.remove`, which copies the
successor price 15 onto the root node without moving its (now empty)
order list and detaches the node that actually holds the 15 ask.
Cancelling the order at 5 then re-derives `best_ask` by walking the tree,
landing on that empty phantom node at price 15, whose `orders.head` is
`None`.  Participant 1 then submits a limit buy 1 at 20: `top_level` sees
no opposing ask, so the bid rests at 20 while the level dictionary still
holds a live ask at 15 — both best prices exist and the book is crossed
(20 on the bid side against 15 on the ask side), and the real 15 ask never
traded. -/
def C7run : EState :=
  run 30 [(0, 1000), (1, 1000)]
    [.limit 0 10 1 "sell", .limit 0 5 1 "sell", .limit 0 15 1 "sell",
     .cancel 0 0, .cancel 0 1, .limit 1 20 1 "buy"]

/-- Claim C7: evaluating the code at the failing input.  After the C7
trace, both best prices exist and `best_bid = 20 > 15 = best_ask`: the
book is crossed, no trade occurred, and a live ask level of one lot at 15
is still registered in the level dictionary. -/
theorem C7_crossed_book :
    Book.get_best_price C7run.book true = some 20 ∧
    Book.get_best_price C7run.book false = some 15 ∧
    ¬ ((20 : Rat) < 15) ∧
    C7run.reports = [] ∧
    levelAggregate C7run.book 15 false = some 1 ∧
    levelAggregate C7run.book 20 true = some 1 := by
  refine ⟨by with_unfolding_all rfl, by with_unfolding_all rfl, by norm_num,
    by with_unfolding_all rfl, by with_unfolding_all rfl, by with_unfolding_all rfl⟩

/-! ## Claim C8: return values and idempotence of cancel -/

/-- Claim C8, amended part: `LimitOrderBook.remove` of an id that is not
registered in `_orders` returns `False` and leaves the book unchanged, so
a second cancel of an already-cancelled id is a no-op. -/
theorem C8_cancel_unknown_noop (b : Book) (oid : Nat)
    (h : alookup b.ordersDict oid = none) :
    Book.remove b oid = (b, some false) := by
  unfold Book.remove
  rw [h]

/-- Trace for claim C8: one resting bid (order id 0). -/
def C8run : EState := run 30 [(0, 100)] [.limit 0 5 1 "buy"]

/-- Claim C8, counterexample: cancelling the resting order id 0 succeeds
but returns `None` (modelled `none`), not `True` — the successful path of
`LimitOrderBook.remove` has no return statement — and the id is indeed
deregistered. -/
theorem C8_counterexample :
    (Book.remove C8run.book 0).2 = none ∧
    (Book.remove C8run.book 0).2 ≠ some true ∧
    alookup (Book.remove C8run.book 0).1.ordersDict 0 = none := by
  refine ⟨by with_unfolding_all rfl, ?_, by with_unfolding_all rfl⟩
  rw [show (Book.remove C8run.book 0).2 = none by with_unfolding_all rfl]
  simp

/-- Witness for C8: the amended theorem applied to the book obtained after
the first cancel, showing the second cancel of id 0 returns `False` and
changes nothing. -/
theorem C8_witness :
    alookup (Book.remove C8run.book 0).1.ordersDict 0 = none ∧
    Book.remove (Book.remove C8run.book 0).1 0 =
      ((Book.remove C8run.book 0).1, some false) :=
  ⟨by with_unfolding_all rfl,
   C8_cancel_unknown_noop (Book.remove C8run.book 0).1 0 (by with_unfolding_all rfl)⟩

/-! ## Claim C9: submission validation -/

/-- Claim C9, amended: limit submissions with non-positive price or size,
or an invalid side, are rejected synchronously (absent result, queue
unchanged), and market submissions with an invalid side likewise; the
counterexample shows market submissions do not validate the size. -/
theorem C9_validation (balance : Rat) (q : List Order) (price : Rat) (size : Int)
    (side : String) (pid oid : Nat) :
    ((price ≤ 0 ∨ size ≤ 0 ∨ (side ≠ "buy" ∧ side ≠ "sell")) →
      participant_create_limit_order balance q price size side pid oid = (none, q)) ∧
    ((side ≠ "buy" ∧ side ≠ "sell") →
      participant_create_market_order balance q size side pid oid = (none, q)) := by
  constructor
  · intro h
    suffices hnone : create_limit_order price size side pid oid = none by
      simp [participant_create_limit_order, hnone]
    unfold create_limit_order
    rcases h with hp | hs | ⟨hb, hs⟩
    · simp [hp]
    · split_ifs <;> first | rfl | simp_all
    · split_ifs <;> first | rfl | simp_all
  · intro ⟨hb, hs⟩
    simp [participant_create_market_order, create_market_order, hb, hs]

/-- Witness for C9: a limit order with size 0 and one with a bad side are
both rejected with the queue untouched. -/
theorem C9_witness :
    participant_create_limit_order 100 [] 5 0 "buy" 7 42 = (none, []) ∧
    participant_create_market_order 100 [] 3 "hold" 7 42 = (none, []) :=
  ⟨(C9_validation 100 [] 5 0 "buy" 7 42).1 (Or.inr (Or.inl le_rfl)),
   (C9_validation 100 [] 5 3 "hold" 7 42).2 (by simp)⟩

/-- Claim C9, counterexample: a market submission with negative size passes
`create_market_order` (which validates only the side), passes
`_place_order_in_queue` (which checks balances only for limit buys), is
enqueued, and returns a present order id to the caller. -/
theorem C9_counterexample :
    participant_create_market_order 100 [] (-3) "buy" 7 42 =
      (some 42,
       [{ order_id := 42, price := none, size := -3, is_bid := true,
          order_type := .market, participant_id := 7 }]) := by
  with_unfolding_all rfl

/-! ## Claim C10: the cancel path does not check ownership

The cancel pipeline (`Participant.remove_order` → queue →
`acceptCancelOrder` → `process` → `LimitOrderBook.remove`) uses only the
`order_id` carried by the cancel order: the id of the cancelling
participant is stored on the transient cancel object and never compared
with the owner of the resting order.  The lemmas below record that, after
`_orders.pop`, none of the bookkeeping performed by `remove` touches the
`_orders` map again. -/

theorem modNode_ordersDict (b : Book) (i : Nat) (f : LimitLevel → LimitLevel) :
    (Book.modNode b i f).ordersDict = b.ordersDict := rfl

theorem modOrder_ordersDict (b : Book) (i : Nat) (f : Order → Order) :
    (Book.modOrder b i f).ordersDict = b.ordersDict := rfl

theorem setNode_ordersDict (b : Book) (i : Nat) (nd : LimitLevel) :
    (Book.setNode b i nd).ordersDict = b.ordersDict := rfl

theorem setTreeRoot_ordersDict (b : Book) (isBid : Bool) (v : Option Nat) :
    (Book.setTreeRoot b isBid v).ordersDict = b.ordersDict := by
  unfold Book.setTreeRoot
  split <;> rfl

theorem pop_from_list_ordersDict (b : Book) (i : Nat) :
    (Book.pop_from_list b i).ordersDict = b.ordersDict := by
  unfold Book.pop_from_list
  repeat' split
  all_goals simp [modNode_ordersDict, modOrder_ordersDict]

theorem update_height_ordersDict (b : Book) (i : Nat) :
    (Book.update_height b i).ordersDict = b.ordersDict := by
  unfold Book.update_height
  repeat' split
  all_goals simp [setNode_ordersDict]

theorem replace_node_in_parent_ordersDict (b : Book) (i : Nat) (v : Option Nat) :
    (Book.replace_node_in_parent b i v).ordersDict = b.ordersDict := by
  unfold Book.replace_node_in_parent
  split
  · rfl
  split
  · rfl
  · split <;> simp [modNode_ordersDict, setTreeRoot_ordersDict]
  · simp only [update_height_ordersDict, modNode_ordersDict]
    split <;> simp only [modNode_ordersDict, update_height_ordersDict] <;>
      split <;> simp [modNode_ordersDict]

theorem ll_case_ordersDict (b : Book) (i : Nat) :
    (Book.ll_case b i).ordersDict = b.ordersDict := by
  unfold Book.ll_case
  split
  · rfl
  split
  · rfl
  simp only [update_height_ordersDict, modNode_ordersDict]
  split <;> simp only [modNode_ordersDict] <;>
    split <;>
      first
        | rfl
        | (split <;> simp [modNode_ordersDict, setTreeRoot_ordersDict])
        | simp [modNode_ordersDict, setTreeRoot_ordersDict]

theorem rr_case_ordersDict (b : Book) (i : Nat) :
    (Book.rr_case b i).ordersDict = b.ordersDict := by
  unfold Book.rr_case
  split
  · rfl
  split
  · rfl
  simp only [update_height_ordersDict, modNode_ordersDict]
  split <;> simp only [modNode_ordersDict] <;>
    split <;>
      first
        | rfl
        | (split <;> simp [modNode_ordersDict, setTreeRoot_ordersDict])
        | simp [modNode_ordersDict, setTreeRoot_ordersDict]

theorem lr_case_ordersDict (b : Book) (i : Nat) :
    (Book.lr_case b i).ordersDict = b.ordersDict := by
  unfold Book.lr_case
  split
  · rfl
  split
  · rfl
  simp only [ll_case_ordersDict, modNode_ordersDict]
  split <;> simp [ll_case_ordersDict, modNode_ordersDict]

theorem rl_case_ordersDict (b : Book) (i : Nat) :
    (Book.rl_case b i).ordersDict = b.ordersDict := by
  unfold Book.rl_case
  split
  · rfl
  split
  · rfl
  simp only [rr_case_ordersDict, modNode_ordersDict]
  split <;> simp [rr_case_ordersDict, modNode_ordersDict]

theorem balance_ordersDict (b : Book) (fuel : Nat) (i : Nat) :
    (Book.balance b fuel i).ordersDict = b.ordersDict := by
  induction fuel generalizing b i with
  | zero => rfl
  | succ fuel ih =>
    unfold Book.balance
    repeat
      first
        | rfl
        | (simp only [update_height_ordersDict, modNode_ordersDict, rl_case_ordersDict,
            rr_case_ordersDict, ll_case_ordersDict, lr_case_ordersDict, ih])
        | split

theorem balance_grandpa_ordersDict (b : Book) (fuel : Nat) (i : Nat) :
    (Book.balance_grandpa b fuel i).ordersDict = b.ordersDict := by
  unfold Book.balance_grandpa
  repeat
    first
      | rfl
      | (simp only [balance_ordersDict])
      | split

theorem removeNode_ordersDict (b : Book) (fuel : Nat) (i : Nat) :
    (Book.removeNode b fuel i).ordersDict = b.ordersDict := by
  induction fuel generalizing b i with
  | zero => rfl
  | succ fuel ih =>
    unfold Book.removeNode
    repeat
      first
        | rfl
        | (simp only [balance_grandpa_ordersDict, replace_node_in_parent_ordersDict,
            modNode_ordersDict, ih])
        | split

theorem update_best_bid_ordersDict (b : Book) :
    (Book.update_best_bid b).ordersDict = b.ordersDict := by
  unfold Book.update_best_bid
  split <;> rfl

theorem update_best_ask_ordersDict (b : Book) :
    (Book.update_best_ask b).ordersDict = b.ordersDict := by
  unfold Book.update_best_ask
  split <;> rfl

/-- After a successful `LimitOrderBook.remove`, the `_orders` map is the
original one with the cancelled id erased. -/
theorem remove_ordersDict (b : Book) (oid objId : Nat)
    (h : alookup b.ordersDict oid = some objId) :
    (Book.remove b oid).1.ordersDict = aerase b.ordersDict oid := by
  unfold Book.remove
  rw [h]
  repeat
    first
      | rfl
      | (simp only [pop_from_list_ordersDict, removeNode_ordersDict,
          update_best_bid_ordersDict, update_best_ask_ordersDict])
      | split

/-- Claim C10: cancelling a resting order succeeds for any submitting
participant.  The state after the cancel command does not depend on the
participant id on the cancel order, and the target id is deregistered from
`_orders` whenever it was registered: no ownership check exists anywhere on
the path. -/
theorem C10_cancel_ignores_owner (fuel : Nat) (s : EState) (pid pid2 target : Nat)
    (hnd : (s.book.ordersDict.map Prod.fst).Nodup)
    (hres : alookup s.book.ordersDict target ≠ none) :
    processCommand fuel s (.cancel pid target) = processCommand fuel s (.cancel pid2 target) ∧
    alookup (processCommand fuel s (.cancel pid target)).book.ordersDict target = none := by
  refine ⟨rfl, ?_⟩
  obtain ⟨objId, hobj⟩ := Option.ne_none_iff_exists'.mp hres
  show alookup (Book.remove s.book target).1.ordersDict target = none
  rw [remove_ordersDict s.book target objId hobj]
  exact alookup_aerase_self _ _ hnd

/-- Witness for C10: in the C8 trace the resting order id 0 belongs to
participant 0, yet a cancel submitted by participant 9 (or 123) removes
it. -/
theorem C10_witness :
    processCommand 30 C8run (.cancel 9 0) = processCommand 30 C8run (.cancel 123 0) ∧
    alookup (processCommand 30 C8run (.cancel 9 0)).book.ordersDict 0 = none :=
  C10_cancel_ignores_owner 30 C8run 9 123 0 (by with_unfolding_all decide)
    (by with_unfolding_all decide)

end WUFC
